import Mathlib

/-!
Verification development for the llama.cpp MCP proxy
(`src/llama_mcp_proxy`): a shallow embedding, in Lean 4, of the
tool-call orchestration engine (`main.py`), the schema translator and
client state machine (`mcp_client/base_client.py`,
`mcp_client/stdio_client.py`), and the configuration resolver and
registry loader (`mcp_client/register.py`, `mcp_client/schemas.py`),
together with theorems settling the specification claims about them.

External library behaviour (Python's `json.loads` / `json.dumps` /
`str`, and the MCP transport reached through `session.call_tool`) is
modelled by oracle functions supplied as parameters, so that every
embedded repository function stays a pure, executable Lean definition.
-/

namespace LlamaMcpProxy

/-- JSON values, modelling the Python dicts/lists/scalars that flow
through the proxy.  Objects are association lists in insertion order,
mirroring Python dict semantics.  Numeric JSON values are collapsed to
a single integer case: no claim depends on float/int distinctions. -/
inductive JsonVal where
  | null : JsonVal
  | bool (b : Bool) : JsonVal
  | num (n : Int) : JsonVal
  | str (s : String) : JsonVal
  | arr (elems : List JsonVal) : JsonVal
  | obj (fields : List (String × JsonVal)) : JsonVal

/-- Python `name.split(".")` on the underlying character list.
`splitOnDot [] = [[]]` just as `"".split(".") == [""]` in Python. -/
def splitOnDot : List Char → List (List Char)
  | [] => [[]]
  | c :: rest =>
    match splitOnDot rest with
    | [] => [[c]]
    | g :: gs => if c = '.' then [] :: g :: gs else (c :: g) :: gs

/-- Python `s.split(".")` on strings: split the character data and
re-pack each group as a string. -/
def pySplitDot (s : String) : List String :=
  (splitOnDot s.data).map String.mk

theorem splitOnDot_ne_nil (l : List Char) : splitOnDot l ≠ [] := by
  cases l with
  | nil => simp [splitOnDot]
  | cons c rest =>
    simp only [splitOnDot]
    cases h : splitOnDot rest with
    | nil => simp
    | cons g gs =>
      by_cases hc : c = '.' <;> simp [hc]

theorem splitOnDot_no_dot (l : List Char) (h : '.' ∉ l) :
    splitOnDot l = [l] := by
  induction l with
  | nil => rfl
  | cons c rest ih =>
    have h1 : ¬('.' = c) ∧ '.' ∉ rest := by simpa using h
    simp only [splitOnDot, ih h1.2]
    rw [if_neg (fun hc => h1.1 hc.symm)]

theorem splitOnDot_append_dot (a b : List Char) (ha : '.' ∉ a) :
    splitOnDot (a ++ '.' :: b) = a :: splitOnDot b := by
  induction a with
  | nil =>
    show splitOnDot ('.' :: b) = [] :: splitOnDot b
    simp only [splitOnDot]
    cases h : splitOnDot b with
    | nil => exact absurd h (splitOnDot_ne_nil b)
    | cons g gs => simp
  | cons c a' ih =>
    have h1 : ¬('.' = c) ∧ '.' ∉ a' := by simpa using ha
    show splitOnDot (c :: (a' ++ '.' :: b)) = (c :: a') :: splitOnDot b
    simp only [splitOnDot, ih h1.2]
    rw [if_neg (fun hc => h1.1 hc.symm)]

/-! ## Data model: tool calls, messages, clients

From `mcp_client/mcp_enums.py`, `mcp_client/base_client.py`,
`mcp_client/stdio_client.py` and the message shapes of `main.py`. -/

/-- `ConnectionState` from `mcp_client/mcp_enums.py`. -/
inductive ConnectionState where
  | disconnected : ConnectionState
  | connecting : ConnectionState
  | connected : ConnectionState
  | error : ConnectionState
deriving Repr, DecidableEq

/-- One tool call as emitted by the inference API and consumed by
`execute_tool_calls` (`main.py`): `tool_call["id"]`,
`tool_call["function"]["name"]`, `tool_call["function"]["arguments"]`
(the arguments are a raw JSON text). -/
structure ToolCall where
  id : String
  name : String
  arguments : String
deriving Repr, DecidableEq

/-- Conversation message roles used by the orchestration loop. -/
inductive Role where
  | assistant : Role
  | tool : Role
deriving Repr, DecidableEq

/-- A conversation message as appended by `execute_tool_calls`:
either the leading assistant message carrying the batch's tool calls,
or a per-call tool-result message. -/
structure Message where
  role : Role
  content : String
  tool_call_id : Option String := none
  toolCalls : Option (List ToolCall) := none
deriving Repr, DecidableEq

/-- A tool descriptor as fetched from a provider at connect time
(`response.tools` in `stdio_client.py`): `name`, `description`,
`inputSchema`.  A `description` of `none` models Python `None`;
`inputSchema` is the JSON-Schema object as an association list
(an absent schema is the empty object, matching the `{}` default of
`_convert_single_tool`). -/
structure MCPTool where
  name : String
  description : Option String := none
  inputSchema : List (String × JsonVal) := []

/-- The translated (OpenAI-convention) tool produced by
`BaseMCPClient._convert_single_tool`: the dict
`{"type": "function", "function": {"name": ..., "description": ...,
"parameters": ...}}` flattened into a record. -/
structure OpenAITool where
  functionName : String
  description : String
  parameters : List (String × JsonVal)

/-- The state owned by one Tool Client (`BaseMCPClient` fields plus
the stdio subclass's connection bookkeeping).  The live transport
objects (`exit_stack`, `session`) are modelled by the single flag
`hasSession`. -/
structure Client where
  name : String
  state : ConnectionState := .disconnected
  command : String := ""
  args : List String := []
  env : Option (List (String × String)) := none
  hasSession : Bool := false
  mcpTools : Option (List MCPTool) := none
  openaiTools : Option (List OpenAITool) := none

/-! ## Schema translator (`BaseMCPClient`, `base_client.py`) -/

/-- Python `"k" in schema` for our association-list dicts. -/
def hasKey (k : String) (s : List (String × JsonVal)) : Bool :=
  (List.lookup k s).isSome

/-- `schema[k] = v` on a dict where `k` is absent: Python inserts the
new key at the end (insertion order); when the key is present the dict
is left unchanged, matching the `if k not in schema` guards of
`_convert_input_schema`. -/
def setDefault (k : String) (v : JsonVal) (s : List (String × JsonVal)) :
    List (String × JsonVal) :=
  if hasKey k s then s else s ++ [(k, v)]

/-- `BaseMCPClient._convert_input_schema` (`base_client.py` lines
85-110): an empty (falsy) schema becomes the canonical empty object
schema; otherwise the schema is copied and `type`, `properties`,
`required` are defaulted in that order when missing. -/
def convertInputSchema (s : List (String × JsonVal)) :
    List (String × JsonVal) :=
  if s.isEmpty then
    [("type", .str "object"), ("properties", .obj []), ("required", .arr [])]
  else
    setDefault "required" (.arr [])
      (setDefault "properties" (.obj [])
        (setDefault "type" (.str "object") s))

/-- `BaseMCPClient._convert_single_tool` (`base_client.py` lines
53-83): a tool with a falsy name raises `RuntimeError` (modelled as
`.error`); otherwise the qualified name is `namespace ++ "." ++ name`,
the description defaults to `Execute <name> tool` when falsy, and the
input schema is normalized by `convertInputSchema`. -/
def convertSingleTool (ns : String) (t : MCPTool) :
    Except String OpenAITool :=
  if t.name = "" then .error "Tool missing name, skipping"
  else
    .ok { functionName := ns ++ "." ++ t.name
          description :=
            match t.description with
            | none => "Execute " ++ t.name ++ " tool"
            | some d => if d = "" then "Execute " ++ t.name ++ " tool" else d
          parameters := convertInputSchema t.inputSchema }

/-- `BaseMCPClient._convert_mcp_tools_to_openai`: run the translator
over the catalog, skipping (not aborting on) entries that fail. -/
def convertMcpToolsToOpenai (ns : String) (tools : List MCPTool) :
    List OpenAITool :=
  tools.filterMap fun t =>
    match convertSingleTool ns t with
    | .ok ot => some ot
    | .error _ => none

/-! ## Tool Client state machine (`stdio_client.py`, `base_client.py`)

The MCP transport (`stdio_client(...)`, `ClientSession`,
`session.initialize()`, `session.list_tools()`) is external; one
connect attempt's overall outcome is an oracle value: `.ok catalog`
when the handshake and tool listing succeed, `.error e` when any step
raises. -/

/-- `MCPStdioClient.connect` (`stdio_client.py` lines 18-50).
Already-`connected` clients return unchanged (no-op branch).  Any
other state — including `error` — proceeds: state moves through
`connecting` (an intermediate value never observable after the call
returns) and ends `connected` with the fetched catalog on success, or
`error` with resources released and an `MCPConnectionError` raised on
failure. -/
def connectStep (c : Client) (transport : Except String (List MCPTool)) :
    Client × Except String Unit :=
  if c.state = .connected then (c, .ok ())
  else
    match transport with
    | .ok tools =>
        let c2 : Client :=
          { c with
            state := .connected
            hasSession := true
            mcpTools := some tools
            openaiTools := some (convertMcpToolsToOpenai c.name tools) }
        (c2, .ok ())
    | .error e =>
        ({ c with state := .error, hasSession := false },
         .error ("MCPConnectionError: " ++ e))

/-- `BaseMCPClient.disconnect` (`base_client.py` lines 112-118): a
no-op when already `disconnected`, otherwise releases the transport
and sets state to `disconnected` (this branch is taken from
`connected`, `connecting` and `error` alike). -/
def disconnectStep (c : Client) : Client :=
  if c.state = .disconnected then c
  else { c with hasSession := false, state := .disconnected }

/-- `MCPStdioClient.call_tool` (`stdio_client.py` lines 57-67): raise
`RuntimeError` when not connected; otherwise forward to the transport
oracle and re-raise its failures.  The client record itself is
returned unchanged — a failed call does not change connection
state. -/
def callToolStep (c : Client)
    (transport : String → JsonVal → Except String JsonVal)
    (toolName : String) (arguments : JsonVal) :
    Client × Except String JsonVal :=
  if c.state = .connected then (c, transport toolName arguments)
  else (c, .error ("Not connected to " ++ c.name))

/-- `MCPStdioClient.list_tools` (`stdio_client.py` lines 52-55):
raise when not connected, else return the translated catalog
(`or []`). -/
def listToolsStep (c : Client) : Client × Except String (List OpenAITool) :=
  if c.state = .connected then (c, .ok (c.openaiTools.getD []))
  else (c, .error ("Not connected to " ++ c.name))

/-! ## Config resolver (`mcp_client/register.py`, `mcp_client/schemas.py`)

A raw provider descriptor is an untyped JSON object.
`MCPClientRegister._parse_config` tries `StdioServerConfig` then
`SSEServerConfig` with `dacite.Config(strict=True)`: a variant matches
only when every descriptor key is a declared field of the dataclass,
every required field is present, and every value has the declared
type. -/

/-- A raw provider descriptor: one entry of the `mcpServers` object. -/
def RawDescriptor : Type := List (String × JsonVal)

/-- dacite type check for `str` fields. -/
def asStr : JsonVal → Option String
  | .str s => some s
  | _ => none

/-- dacite type check for `list[str]` fields. -/
def asStrList : JsonVal → Option (List String)
  | .arr es => es.mapM asStr
  | _ => none

/-- dacite type check for `dict[str, str]` fields. -/
def asStrMap : JsonVal → Option (List (String × String))
  | .obj fs => fs.mapM fun p => (asStr p.2).map fun s => (p.1, s)
  | _ => none

/-- dacite type check for the `float` field `timeout` (numeric JSON
values are collapsed to `Int` in this model). -/
def asNum : JsonVal → Option Int
  | .num n => some n
  | _ => none

/-- dacite type check for `dict[str, Literal["sse", "websocket"]]`. -/
def asHeaderMap : JsonVal → Option (List (String × String))
  | .obj fs => fs.mapM fun p =>
      match p.2 with
      | .str s => if s = "sse" ∨ s = "websocket" then some (p.1, s) else none
      | _ => none
  | _ => none

/-- `StdioServerConfig` (`schemas.py` lines 12-19): required
`command`, optional `args`, `env`, `timeout`. -/
structure StdioServerConfig where
  command : String
  args : Option (List String) := none
  env : Option (List (String × String)) := none
  timeout : Option Int := none

/-- `SSEServerConfig` (`schemas.py` lines 22-28): required `url`,
optional `transport`, `headers`. -/
structure SSEServerConfig where
  url : String
  transport : Option String := none
  headers : Option (List (String × String)) := none

/-- Strict-mode key check: every descriptor key must be a declared
field of the candidate dataclass (`dacite.Config(strict=True)` raises
`UnexpectedData` otherwise). -/
def keysAllowed (d : RawDescriptor) (allowed : List String) : Bool :=
  d.all fun p => p.1 ∈ allowed

/-- An optional dataclass field: absent is fine (`none`), present
values must pass the field's type check. -/
def optField (d : RawDescriptor) (k : String)
    (conv : JsonVal → Option α) : Option (Option α) :=
  match List.lookup k d with
  | none => some none
  | some v => (conv v).map some

/-- Attempt to build a `StdioServerConfig` from a raw descriptor under
dacite strict matching. -/
def parseStdio (d : RawDescriptor) : Option StdioServerConfig :=
  if keysAllowed d ["command", "args", "env", "timeout"] then
    ((List.lookup "command" d).bind asStr).bind fun cmd =>
      (optField d "args" asStrList).bind fun args =>
        (optField d "env" asStrMap).bind fun env =>
          (optField d "timeout" asNum).map fun tout =>
            { command := cmd, args := args, env := env, timeout := tout }
  else none

/-- Attempt to build an `SSEServerConfig` from a raw descriptor under
dacite strict matching. -/
def parseSSE (d : RawDescriptor) : Option SSEServerConfig :=
  if keysAllowed d ["url", "transport", "headers"] then
    ((List.lookup "url" d).bind asStr).bind fun url =>
      (optField d "transport" asStr).bind fun tr =>
        (optField d "headers" asHeaderMap).map fun hd =>
          { url := url, transport := tr, headers := hd }
  else none

/-- The resolved configuration: one of the two registered variants. -/
inductive ServerConfig where
  | stdio (c : StdioServerConfig) : ServerConfig
  | sse (c : SSEServerConfig) : ServerConfig

/-- `MCPClientRegister._parse_config` (`register.py` lines 46-66):
try each config type in the fixed order
`[StdioServerConfig, SSEServerConfig]`, return the first that parses,
raise `ValueError` (the classification error naming the attempted
types) when none does. -/
def parseConfig (d : RawDescriptor) : Except String ServerConfig :=
  match parseStdio d with
  | some c => .ok (.stdio c)
  | none =>
    match parseSSE d with
    | some c => .ok (.sse c)
    | none =>
        .error ("Configuration doesn't match any known types: "
          ++ "[StdioServerConfig, SSEServerConfig]")

/-- `create_stdio_client` (`register.py` lines 70-79): build an
`MCPStdioClient` over `StdioServerParameters(command, args or [],
env or None)`. -/
def mkStdioClient (serverName : String) (c : StdioServerConfig) : Client :=
  { name := serverName
    state := .disconnected
    command := c.command
    args := c.args.getD []
    env := c.env }

/-- `MCPClientRegister.create_client` (`register.py` lines 31-44):
parse the config and dispatch to the registered creator.  A
`ValueError` from classification or the `NotImplementedError` raised
by `create_sse_client` is caught and logged; the function then falls
through and returns `None`. -/
def createClient (serverName : String) (d : RawDescriptor) : Option Client :=
  match parseConfig d with
  | .ok (.stdio c) => some (mkStdioClient serverName c)
  | .ok (.sse _) => none
  | .error _ => none

/-! ## Registry loader and startup (`register.py`, `main.py`)

File I/O and `json.loads` on the descriptor file are summarized by a
single oracle value: `.error f` when opening/reading/parsing raises
(`f` says which way), `.ok v` when the file parses to the JSON value
`v`. -/

/-- Outcome of opening and JSON-parsing the descriptor file. -/
inductive FileErr where
  | notFound : FileErr
  | badJson : FileErr
  | otherIo : FileErr
deriving Repr, DecidableEq

/-- The exception classes re-raised by `load_mcp_servers`
(`register.py` lines 105-110). -/
inductive LoadErr where
  | fileNotFound : LoadErr
  | jsonDecode : LoadErr
  | otherRaise : LoadErr
deriving Repr, DecidableEq

/-- `load_mcp_servers` (`register.py` lines 88-110): re-raises
`FileNotFoundError` / `JSONDecodeError` for a missing or syntactically
invalid file; a `null` config raises `ValueError` ("config file is
empty"), re-wrapped by the catch-all `except Exception` clause;
a non-object config (or a non-object `mcpServers` value or server
entry) makes attribute/dacite access raise, also re-wrapped.  For an
object config, each `mcpServers` entry goes through `createClient`,
keeping only the entries that produce a client. -/
def loadMcpServers (file : Except FileErr JsonVal) :
    Except LoadErr (List (String × Client)) :=
  match file with
  | .error .notFound => .error .fileNotFound
  | .error .badJson => .error .jsonDecode
  | .error .otherIo => .error .otherRaise
  | .ok v =>
    match v with
    | .obj fields =>
      match (List.lookup "mcpServers" fields).getD (.obj []) with
      | .obj entries =>
          entries.foldlM
            (fun acc e =>
              match e.2 with
              | .obj d =>
                  match createClient e.1 d with
                  | some c => .ok (acc ++ [(e.1, c)])
                  | none => .ok acc
              | _ => .error .otherRaise)
            []
      | _ => .error .otherRaise
    | _ => .error .otherRaise

/-- What the aiohttp startup hook leaves behind: either the process
halted during startup (an uncaught exception in an `on_startup`
callback aborts the application) or the app serves requests with the
given `connected_servers` registry. -/
inductive StartupOutcome where
  | halted : StartupOutcome
  | serving (registry : List (String × Client)) : StartupOutcome

/-- `init_mcp_servers` (`main.py` lines 252-271).  Each constructed
client is connected; a per-provider connect failure is logged and the
provider omitted.  The surrounding `try/except Exception` catches
*everything* `load_mcp_servers` raises and only logs it, so the app
always proceeds to serve — with an empty registry when loading
failed. -/
def initMcpServers (file : Except FileErr JsonVal)
    (connectOutcome : String → Except String (List MCPTool)) :
    StartupOutcome :=
  match loadMcpServers file with
  | .error _ => .serving []
  | .ok cs =>
      .serving (cs.filterMap fun nc =>
        match connectStep nc.2 (connectOutcome nc.1) with
        | (c2, .ok _) => some (nc.1, c2)
        | (_, .error _) => none)

/-! ## Orchestration engine (`main.py`)

`json.loads`, `json.dumps`, `str(...)` and the per-provider MCP
transport are external; they enter the model as the oracle fields of
`Env`.  `Env.loads s = none` models `json.loads(s)` raising
`JSONDecodeError`. -/

/-- Oracles for the Python standard library and the MCP transport. -/
structure Env where
  loads : String → Option JsonVal
  dumps : JsonVal → String
  pyToStr : JsonVal → String
  callTransport : String → String → JsonVal → Except String JsonVal

/-- The registry `connected_servers : dict[str, BaseMCPClient]`. -/
def Registry : Type := List (String × Client)

/-- `main.py` line 145 forwards to `BaseMCPClient.call_tool`, i.e.
`callToolStep` with the provider's transport oracle. -/
def clientCallTool (env : Env) (c : Client) (tool : String)
    (args : JsonVal) : Except String JsonVal :=
  (callToolStep c (env.callTransport c.name) tool args).2

/-- `main.py` lines 152-154: a dict/list result is serialized with
`json.dumps`, anything else passes through `str(...)`. -/
def serializeResult (env : Env) : JsonVal → String
  | .obj fs => env.dumps (.obj fs)
  | .arr es => env.dumps (.arr es)
  | v => env.pyToStr v

/-- The tool-result content the model sees for a call whose provider
is not in the registry: `connected_servers.get(namespace, {})` yields
`{}`, and `{}.call_tool(...)` raises `AttributeError` inside the
`try`, so the `except` branch appends
`f"Error executing tool: {str(e)}"` with the attribute error as the
message.  (In CPython the message quotes the words `dict` and
`call_tool`; the quoting characters are omitted here.) -/
def unknownToolText : String :=
  "Error executing tool: dict object has no attribute call_tool"

/-- Exceptions that escape `execute_tool_calls` (raised on lines
133 and 137 of `main.py`, before the per-call `try`). -/
inductive ExecErr where
  | jsonDecode : ExecErr
  | unpackError : ExecErr
deriving Repr, DecidableEq

/-- The leading assistant message of `execute_tool_calls`
(`main.py` line 129): empty content, carrying the whole batch. -/
def assistantMsg (calls : List ToolCall) : Message :=
  { role := .assistant, content := "", toolCalls := some calls }

/-- One iteration of the loop body of `execute_tool_calls`
(`main.py` lines 131-167), in source order: `json.loads(arguments)`
(may raise, before the `try`), `name.split(".")` unpacked into exactly
two names (may raise `ValueError`, before the `try`), registry lookup,
then the guarded call whose success or failure both become a
tool-result message. -/
def runCall (env : Env) (servers : Registry) (tc : ToolCall) :
    Except ExecErr Message :=
  match env.loads tc.arguments with
  | none => .error .jsonDecode
  | some args =>
    match pySplitDot tc.name with
    | [ns, bare] =>
      .ok { role := .tool
            tool_call_id := some tc.id
            content :=
              match List.lookup ns servers with
              | none => unknownToolText
              | some c =>
                match clientCallTool env c bare args with
                | .ok v => serializeResult env v
                | .error e => "Error executing tool: " ++ e }
    | _ => .error .unpackError

/-- The `for tool_call in tool_calls` loop of `execute_tool_calls`:
process the calls left to right, collecting one message per call; the
first raising iteration aborts the loop (and discards the collected
messages, since the exception propagates out of the function). -/
def runCalls (env : Env) (servers : Registry) :
    List ToolCall → Except ExecErr (List Message)
  | [] => .ok []
  | tc :: rest =>
    match runCall env servers tc with
    | .error e => .error e
    | .ok m =>
      match runCalls env servers rest with
      | .error e => .error e
      | .ok ms => .ok (m :: ms)

/-- `execute_tool_calls` (`main.py` lines 128-168): the assistant
message followed by one tool-result message per call, in call order;
an exception from any iteration aborts the whole batch. -/
def executeToolCalls (env : Env) (servers : Registry)
    (calls : List ToolCall) : Except ExecErr (List Message) :=
  (runCalls env servers calls).map fun results =>
    assistantMsg calls :: results

/-- The tool-result message `runCall` produces for a well-formed call,
as a total function (used to state order preservation). -/
def msgOf (env : Env) (servers : Registry) (tc : ToolCall) : Message :=
  { role := .tool
    tool_call_id := some tc.id
    content :=
      let args := (env.loads tc.arguments).getD .null
      let parts := pySplitDot tc.name
      match List.lookup (parts.getD 0 "") servers with
      | none => unknownToolText
      | some c =>
        match clientCallTool env c (parts.getD 1 "") args with
        | .ok v => serializeResult env v
        | .error e => "Error executing tool: " ++ e }

/-- A tool call the batch executor processes without raising: its
arguments string is loadable JSON and its qualified name splits into
exactly one `<provider>.<tool>` pair. -/
def GoodCall (env : Env) (tc : ToolCall) : Prop :=
  (env.loads tc.arguments).isSome ∧ (pySplitDot tc.name).length = 2

/-! ### The resolution loop (`handle_tool_calls`) and the buffered
branch of `proxy_request`

One round-trip to the upstream API is summarized per round index `k`
by `upstream k`: HTTP status, raw body bytes, and the result of
`json.loads` + `parse_tools_from_response` on that body
(`parsed = none` models an unparseable 200 body;
`RespData.toolCalls = []` models a response without tool calls, since
`parse_tools_from_response` returns `[]` whenever `choices[0].message.
tool_calls` is missing or empty).  `payload` stands for the rest of
the response body, so distinct rounds are distinguishable. -/

/-- A parsed upstream chat-completion response. -/
structure RespData where
  toolCalls : List ToolCall
  payload : Nat
deriving Repr, DecidableEq

/-- One upstream HTTP response. -/
structure UpResp where
  status : Nat
  body : String
  parsed : Option RespData
deriving Repr, DecidableEq

/-- Exceptions escaping `handle_tool_calls`. -/
inductive ProxyErr where
  /-- `raise RuntimeError(f"Reached Max iteration ...")`, line 220. -/
  | runtimeMaxIter : ProxyErr
  /-- `return final_response` on a non-200 follow-up before any 200
  round assigned `final_response`: `NameError`, line 218. -/
  | nameError : ProxyErr
  /-- `json.loads(final_content)` failed on a 200 follow-up body,
  line 201. -/
  | jsonDecode : ProxyErr
  /-- re-raised out of `execute_tool_calls`. -/
  | execRaise (e : ExecErr) : ProxyErr
deriving Repr, DecidableEq

/-- The `for _ in range(MAX_ITERATION)` loop of `handle_tool_calls`
(`main.py` lines 192-220).  `fuel` is the remaining iteration count,
`k` the index of the next follow-up round, `prev` the value of the
Python local `final_response` (`none` while still unassigned).  Each
iteration posts the conversation and reads `upstream k`: a 200
response is parsed and either returned (no tool calls) or its calls
executed before the next iteration; a non-200 response hits
`return final_response`, yielding the *previous* round's parsed data
or `NameError`.  Exhausted fuel raises `RuntimeError`. -/
def handleLoop (env : Env) (servers : Registry) (upstream : Nat → UpResp) :
    Nat → Nat → Option RespData → Except ProxyErr RespData
  | 0, _, _ => .error .runtimeMaxIter
  | fuel + 1, k, prev =>
    let r := upstream k
    if r.status = 200 then
      match r.parsed with
      | none => .error .jsonDecode
      | some d =>
        if d.toolCalls.isEmpty then .ok d
        else
          match executeToolCalls env servers d.toolCalls with
          | .error e => .error (.execRaise e)
          | .ok _ => handleLoop env servers upstream fuel (k + 1) (some d)
    else
      match prev with
      | none => .error .nameError
      | some d => .ok d

/-- `handle_tool_calls` (`main.py` lines 171-220): execute the initial
batch, then enter the follow-up loop with `final_response` unbound. -/
def handleToolCalls (env : Env) (servers : Registry)
    (upstream : Nat → UpResp) (maxIteration : Nat)
    (initialCalls : List ToolCall) : Except ProxyErr RespData :=
  match executeToolCalls env servers initialCalls with
  | .error e => .error (.execRaise e)
  | .ok _ => handleLoop env servers upstream maxIteration 0 none

/-- What `proxy_request` hands back to the caller on its buffered
(non-streaming) path. -/
inductive Forwarded where
  /-- `web.Response(body=content, status=response.status, ...)`:
  the unmodified first upstream response, line 117. -/
  | relay (status : Nat) (body : String) : Forwarded
  /-- `web.json_response(processed_response, status=200)`, line 111. -/
  | jsonOk (d : RespData) : Forwarded
  /-- `web.json_response({"error": "Internal server error"},
  status=500)`, line 125. -/
  | internalError : Forwarded
deriving Repr, DecidableEq

/-- The buffered response handling of `proxy_request` (`main.py`
lines 100-125), given the first upstream response.  The MCP branch is
entered only for a 200 status with `ENABLE_MCP` set, a parseable body
and a non-empty tool-call list; otherwise the first response is
relayed unchanged.  The inner `except json.JSONDecodeError` catches
decode errors raised anywhere inside its `try` — including those
propagating out of `handle_tool_calls` — and falls through to the
relay; every other exception reaches the outer `except Exception`
and becomes the 500 response. -/
def proxyBuffered (env : Env) (servers : Registry)
    (upstream : Nat → UpResp) (maxIteration : Nat) (enableMcp : Bool)
    (first : UpResp) : Forwarded :=
  if first.status = 200 ∧ enableMcp then
    match first.parsed with
    | none => .relay first.status first.body
    | some d =>
      if d.toolCalls.isEmpty then .relay first.status first.body
      else
        match handleToolCalls env servers upstream maxIteration
            d.toolCalls with
        | .ok fin => .jsonOk fin
        | .error .jsonDecode => .relay first.status first.body
        | .error (.execRaise .jsonDecode) => .relay first.status first.body
        | .error (.execRaise .unpackError) => .internalError
        | .error .runtimeMaxIter => .internalError
        | .error .nameError => .internalError
  else .relay first.status first.body

/-! ## Substring matching (for stating what an error text mentions) -/

/-- Whether `needle` is a prefix of `hay` (character lists). -/
def startsWithChars : List Char → List Char → Bool
  | _, [] => true
  | [], _ :: _ => false
  | a :: as, b :: bs => (a == b) && startsWithChars as bs

/-- Whether `needle` occurs contiguously anywhere inside `hay`. -/
def containsChars : List Char → List Char → Bool
  | [], needle => needle.isEmpty
  | c :: t, needle => startsWithChars (c :: t) needle || containsChars t needle

/-- Whether the string `needle` occurs inside the string `hay`. -/
def strContainsSub (hay needle : String) : Bool :=
  containsChars hay.data needle.data

/-- Modelled from the spec: a tool-result content that "states the
tool does not exist" (spec wording: "record a tool-result message
stating the tool does not exist", "a tool-result message describing
the missing tool").  The content qualifies when it speaks of
(non-)existence, of an unknown / not found / missing tool, or at
least names the hallucinated qualified tool name.  This predicate
exists to compare the code's actual message against the spec's
description; it is not part of the embedded program. -/
def SpecStatesToolDoesNotExist (tc : ToolCall) (content : String) : Prop :=
  strContainsSub content "exist" = true ∨
  strContainsSub content "not found" = true ∨
  strContainsSub content "unknown" = true ∨
  strContainsSub content "missing" = true ∨
  strContainsSub content tc.name = true

instance (tc : ToolCall) (content : String) :
    Decidable (SpecStatesToolDoesNotExist tc content) :=
  inferInstanceAs (Decidable (_ ∨ _ ∨ _ ∨ _ ∨ _))

/-! ## Concrete inputs for witnesses and counterexamples -/

/-- A tool call on which the batch executor raises before the per-call
`try`: unparseable arguments or a qualified name that does not unpack
into exactly two dot-separated segments. -/
def BadCall (env : Env) (tc : ToolCall) : Prop :=
  ¬ GoodCall env tc

instance (env : Env) (tc : ToolCall) : Decidable (GoodCall env tc) :=
  inferInstanceAs (Decidable (_ ∧ _))

instance (env : Env) (tc : ToolCall) : Decidable (BadCall env tc) :=
  inferInstanceAs (Decidable (¬ _))

/-- A concrete oracle assignment: every arguments string parses to the
empty JSON object, serialization is trivial, and every transport call
fails (exercising the claims' "regardless of failures" parts). -/
def env0 : Env :=
  { loads := fun _ => some (.obj [])
    dumps := fun _ => "serialized"
    pyToStr := fun _ => "stringified"
    callTransport := fun _ _ _ => .error "transport failure" }

/-- A registry with the single connected provider `files`. -/
def servers0 : Registry :=
  [("files", { name := "files", state := .connected })]

/-- A two-call batch: one call to the connected provider, one call to
a provider absent from the registry. -/
def calls0 : List ToolCall :=
  [{ id := "call_1", name := "files.read", arguments := "ARGS1" },
   { id := "call_2", name := "ghost.run", arguments := "ARGS2" }]

/-- A single call to the provider `ghost`, absent from every registry
used below. -/
def ghostCall : ToolCall :=
  { id := "call_g", name := "ghost.run", arguments := "ARGS" }

/-- A client sitting in the terminal-per-the-spec `error` state. -/
def cErr : Client :=
  { name := "db", state := .error }

/-- Parsed body of the first upstream response: one `ghost.run` tool
call. -/
def dataFirst : RespData := { toolCalls := [ghostCall], payload := 0 }

/-- Parsed body of follow-up round 0: again one `ghost.run` tool call
(the model keeps calling tools), distinguishable from `dataFirst`. -/
def dataRound0 : RespData := { toolCalls := [ghostCall], payload := 1 }

/-- The first upstream response: 200 with tool calls. -/
def firstResp : UpResp := { status := 200, body := "FIRST", parsed := some dataFirst }

/-- Upstream behaviour for the C2 counterexample: follow-up round 0
answers 200 with tool calls, every later round fails with 500. -/
def upstreamStale : Nat → UpResp := fun k =>
  if k = 0 then { status := 200, body := "ROUND0", parsed := some dataRound0 }
  else { status := 500, body := "UPSTREAM_FAILURE", parsed := none }

/-- Upstream behaviour whose very first follow-up round fails. -/
def upstreamFailNow : Nat → UpResp := fun _ =>
  { status := 500, body := "UPSTREAM_FAILURE", parsed := none }

/-- Upstream behaviour that always answers 200 with tool calls (the
model never converges). -/
def upstreamLoops : Nat → UpResp := fun _ =>
  { status := 200, body := "ROUND", parsed := some dataRound0 }

/-! ## Helper lemmas on the batch executor -/

theorem runCall_good (env : Env) (servers : Registry) (tc : ToolCall)
    (h : GoodCall env tc) :
    runCall env servers tc = .ok (msgOf env servers tc) := by
  obtain ⟨h1, h2⟩ := h
  obtain ⟨args, hl⟩ := Option.isSome_iff_exists.mp h1
  match hp : pySplitDot tc.name with
  | [] | [_] | _ :: _ :: _ :: _ => simp [hp] at h2
  | [x, y] =>
    simp [runCall, msgOf, hl, hp]

theorem runCall_bad (env : Env) (servers : Registry) (tc : ToolCall)
    (h : BadCall env tc) : ∀ m, runCall env servers tc ≠ .ok m := by
  intro m
  cases hl : env.loads tc.arguments with
  | none => simp [runCall, hl]
  | some args =>
    have h2 : (pySplitDot tc.name).length ≠ 2 := by
      intro hlen
      exact h ⟨by simp [GoodCall, hl], hlen⟩
    match hp : pySplitDot tc.name with
    | [] | [_] | _ :: _ :: _ :: _ => simp [runCall, hl, hp]
    | [x, y] => simp [hp] at h2

theorem runCalls_good (env : Env) (servers : Registry) :
    ∀ calls : List ToolCall, (∀ tc ∈ calls, GoodCall env tc) →
    runCalls env servers calls = .ok (calls.map (msgOf env servers)) := by
  intro calls h
  induction calls with
  | nil => rfl
  | cons a l ih =>
    have ha : GoodCall env a := h a (List.mem_cons_self a l)
    have hl : ∀ tc ∈ l, GoodCall env tc :=
      fun tc htc => h tc (List.mem_cons_of_mem a htc)
    simp [runCalls, runCall_good env servers a ha, ih hl]

theorem runCalls_bad (env : Env) (servers : Registry) :
    ∀ calls : List ToolCall, (∃ tc ∈ calls, BadCall env tc) →
    ∃ e, runCalls env servers calls = .error e := by
  intro calls h
  induction calls with
  | nil => simp at h
  | cons a l ih =>
    cases hr : runCall env servers a with
    | error e => exact ⟨e, by simp [runCalls, hr]⟩
    | ok m =>
      obtain ⟨tc, htc, hbad⟩ := h
      rcases List.mem_cons.mp htc with rfl | htl
      · exact absurd hr (runCall_bad env servers tc hbad m)
      · obtain ⟨e, he⟩ := ih ⟨tc, htl, hbad⟩
        exact ⟨e, by simp [runCalls, hr, he]⟩

/-! ## C1 -/

/-- C1: for every batch whose calls all have a qualified name
splitting into exactly one provider/tool pair and JSON-parseable
argument strings, `execute_tool_calls` returns the leading assistant
message followed by exactly one tool-result message per call, in
batch order (the i-th result message carries the i-th call's id),
whatever the registry contents and however many of the transport
invocations fail. -/
theorem executeToolCalls_one_result_per_call_in_order
    (env : Env) (servers : Registry) (calls : List ToolCall)
    (h : ∀ tc ∈ calls, GoodCall env tc) :
    executeToolCalls env servers calls
      = .ok (assistantMsg calls :: calls.map (msgOf env servers)) ∧
    (calls.map (msgOf env servers)).length = calls.length ∧
    ∀ tc ∈ calls, (msgOf env servers tc).role = .tool ∧
      (msgOf env servers tc).tool_call_id = some tc.id := by
  refine ⟨?_, List.length_map calls (msgOf env servers), ?_⟩
  · simp [executeToolCalls, runCalls_good env servers calls h, Except.map]
  · intro tc _
    exact ⟨rfl, rfl⟩

/-- Witness for C1 at the concrete batch `calls0` against `servers0`:
both calls are well-formed, the first one's transport invocation
fails, the second one's provider does not exist, and the batch still
yields the assistant message plus two ordered result messages. -/
theorem executeToolCalls_one_result_per_call_in_order_witness :
    executeToolCalls env0 servers0 calls0
      = .ok (assistantMsg calls0 :: calls0.map (msgOf env0 servers0)) ∧
    (calls0.map (msgOf env0 servers0)).length = calls0.length ∧
    ∀ tc ∈ calls0, (msgOf env0 servers0 tc).role = .tool ∧
      (msgOf env0 servers0 tc).tool_call_id = some tc.id :=
  executeToolCalls_one_result_per_call_in_order env0 servers0 calls0
    (by decide)

/-! ## C10 -/

/-- C10: if any call of the batch has a qualified name that does not
split into exactly two dot-separated segments or an arguments string
that is not valid JSON, `execute_tool_calls` raises out of the batch
(both raises happen before the per-call `try`), so no message list is
produced at all — in particular no tool-result message for that call
or any later call. -/
theorem executeToolCalls_raises_on_malformed_call
    (env : Env) (servers : Registry) (calls : List ToolCall)
    (h : ∃ tc ∈ calls, BadCall env tc) :
    ∃ e, executeToolCalls env servers calls = .error e := by
  obtain ⟨e, he⟩ := runCalls_bad env servers calls h
  exact ⟨e, by simp [executeToolCalls, he, Except.map]⟩

/-- Witness for C10: a batch whose second call's name has three
dot-separated segments raises `ValueError` out of the executor. -/
theorem executeToolCalls_raises_on_malformed_call_witness :
    ∃ e, executeToolCalls env0 servers0
      [{ id := "call_1", name := "files.read", arguments := "A" },
       { id := "call_2", name := "a.b.c", arguments := "A" }] = .error e :=
  executeToolCalls_raises_on_malformed_call env0 servers0 _
    ⟨{ id := "call_2", name := "a.b.c", arguments := "A" },
     by decide, by decide⟩

/-! ## Helper lemmas on association-list lookup -/

theorem lookup_append_some (k : String) (s t : List (String × JsonVal))
    (w : JsonVal) (h : List.lookup k s = some w) :
    List.lookup k (s ++ t) = some w := by
  induction s with
  | nil => exact Option.noConfusion h
  | cons a l ih =>
    obtain ⟨a1, a2⟩ := a
    rw [List.cons_append]
    by_cases hk : k = a1
    · subst hk
      simp only [List.lookup, beq_self_eq_true] at h ⊢
      exact h
    · have hkb : (k == a1) = false := beq_eq_false_iff_ne.mpr hk
      simp only [List.lookup, hkb] at h ⊢
      exact ih h

theorem lookup_append_none (k : String) (s t : List (String × JsonVal))
    (h : List.lookup k s = none) :
    List.lookup k (s ++ t) = List.lookup k t := by
  induction s with
  | nil => rfl
  | cons a l ih =>
    obtain ⟨a1, a2⟩ := a
    rw [List.cons_append]
    by_cases hk : k = a1
    · subst hk
      simp only [List.lookup, beq_self_eq_true] at h
      exact Option.noConfusion h
    · have hkb : (k == a1) = false := beq_eq_false_iff_ne.mpr hk
      simp only [List.lookup, hkb] at h ⊢
      exact ih h

theorem lookup_setDefault_same (k : String) (v : JsonVal)
    (s : List (String × JsonVal)) :
    List.lookup k (setDefault k v s) = some ((List.lookup k s).getD v) := by
  unfold setDefault hasKey
  cases h : List.lookup k s with
  | some w => simp [h]
  | none =>
    simp only [h, Option.isSome_none, Bool.false_eq_true, if_false,
      Option.getD_none]
    rw [lookup_append_none k s _ h]
    simp [List.lookup]

theorem lookup_setDefault_preserve (k k' : String) (v : JsonVal)
    (s : List (String × JsonVal)) (w : JsonVal)
    (h : List.lookup k' s = some w) :
    List.lookup k' (setDefault k v s) = some w := by
  unfold setDefault hasKey
  cases hk : List.lookup k s with
  | some u => simp [hk, h]
  | none =>
    simp only [hk, Option.isSome_none, Bool.false_eq_true, if_false]
    exact lookup_append_some k' s _ w h

theorem lookup_setDefault_ne (k k' : String) (v : JsonVal)
    (s : List (String × JsonVal)) (hne : k' ≠ k) :
    List.lookup k' (setDefault k v s) = List.lookup k' s := by
  unfold setDefault hasKey
  cases hk : (List.lookup k s).isSome with
  | true => rw [if_pos rfl]
  | false =>
    rw [if_neg Bool.false_ne_true]
    cases hl : List.lookup k' s with
    | some w => exact lookup_append_some k' s _ w hl
    | none =>
      rw [lookup_append_none k' s _ hl]
      simp only [List.lookup, beq_eq_false_iff_ne.mpr hne]

/-! ## C9 -/

/-- C9: for every input schema, the translated parameters object has
the keys `type`, `properties` and `required` (with values
`"object"`, `{}`, `[]` respectively when the input schema lacked the
key), while every key/value pair of the input schema is preserved
unmodified. -/
theorem convertInputSchema_normalizes (s : List (String × JsonVal)) :
    (hasKey "type" (convertInputSchema s)
      ∧ hasKey "properties" (convertInputSchema s)
      ∧ hasKey "required" (convertInputSchema s))
    ∧ (List.lookup "type" s = none →
        List.lookup "type" (convertInputSchema s) = some (.str "object"))
    ∧ (List.lookup "properties" s = none →
        List.lookup "properties" (convertInputSchema s) = some (.obj []))
    ∧ (List.lookup "required" s = none →
        List.lookup "required" (convertInputSchema s) = some (.arr []))
    ∧ (∀ k v, List.lookup k s = some v →
        List.lookup k (convertInputSchema s) = some v) := by
  cases s with
  | nil =>
    refine ⟨⟨rfl, rfl, rfl⟩, fun _ => rfl, fun _ => rfl, fun _ => rfl, ?_⟩
    intro k v h
    exact Option.noConfusion h
  | cons a l =>
    rw [convertInputSchema]
    simp only [List.isEmpty_cons, Bool.false_eq_true, if_false]
    set s := a :: l with hs
    have htype : List.lookup "type"
        (setDefault "required" (.arr [])
          (setDefault "properties" (.obj [])
            (setDefault "type" (.str "object") s)))
        = some ((List.lookup "type" s).getD (.str "object")) := by
      rw [lookup_setDefault_ne _ _ _ _ (by decide),
          lookup_setDefault_ne _ _ _ _ (by decide),
          lookup_setDefault_same]
    have hprops : List.lookup "properties"
        (setDefault "required" (.arr [])
          (setDefault "properties" (.obj [])
            (setDefault "type" (.str "object") s)))
        = some ((List.lookup "properties" s).getD (.obj [])) := by
      rw [lookup_setDefault_ne _ _ _ _ (by decide),
          lookup_setDefault_same,
          lookup_setDefault_ne _ _ _ _ (by decide)]
    have hreq : List.lookup "required"
        (setDefault "required" (.arr [])
          (setDefault "properties" (.obj [])
            (setDefault "type" (.str "object") s)))
        = some ((List.lookup "required" s).getD (.arr [])) := by
      rw [lookup_setDefault_same,
          lookup_setDefault_ne _ _ _ _ (by decide),
          lookup_setDefault_ne _ _ _ _ (by decide)]
    refine ⟨⟨?_, ?_, ?_⟩, ?_, ?_, ?_, ?_⟩
    · simp [hasKey, htype]
    · simp [hasKey, hprops]
    · simp [hasKey, hreq]
    · intro h
      rw [htype, h]
      rfl
    · intro h
      rw [hprops, h]
      rfl
    · intro h
      rw [hreq, h]
      rfl
    · intro k v h
      exact lookup_setDefault_preserve "required" k (.arr []) _ _
        (lookup_setDefault_preserve "properties" k (.obj []) _ _
          (lookup_setDefault_preserve "type" k (.str "object") s v h))

/-- Witness for C9 at a concrete schema that has a `type` key of its
own, one passthrough key, and no `properties`/`required`. -/
theorem convertInputSchema_normalizes_witness :
    List.lookup "title" (convertInputSchema
        [("type", .str "string"), ("title", .str "T")]) = some (.str "T")
    ∧ List.lookup "type" (convertInputSchema
        [("type", .str "string"), ("title", .str "T")]) = some (.str "string")
    ∧ List.lookup "required" (convertInputSchema
        [("type", .str "string"), ("title", .str "T")]) = some (.arr []) :=
  ⟨(convertInputSchema_normalizes
      [("type", .str "string"), ("title", .str "T")]).2.2.2.2
      "title" (.str "T") rfl,
   (convertInputSchema_normalizes
      [("type", .str "string"), ("title", .str "T")]).2.2.2.2
      "type" (.str "string") rfl,
   (convertInputSchema_normalizes
      [("type", .str "string"), ("title", .str "T")]).2.2.2.1 rfl⟩

/-! ## C8 -/

/-- C8: for a provider name and a tool name that contain no literal
dot (the tool name nonempty, else the translator rejects the entry),
the translated qualified name is exactly
`provider ++ "." ++ originalName`, and the orchestration loop's split
step (`tool_name.split(".")` in `execute_tool_calls`) maps it back to
exactly the pair `(provider, originalName)`. -/
theorem qualifiedName_split_roundtrip (ns : String) (t : MCPTool)
    (h1 : '.' ∉ ns.data) (h2 : '.' ∉ t.name.data) (h3 : t.name ≠ "") :
    (∃ ot, convertSingleTool ns t = .ok ot) ∧
    (∀ ot, convertSingleTool ns t = .ok ot →
      ot.functionName = ns ++ "." ++ t.name ∧
      pySplitDot ot.functionName = [ns, t.name]) := by
  have hsplit : pySplitDot (ns ++ "." ++ t.name) = [ns, t.name] := by
    have hd : (ns ++ "." ++ t.name).data = ns.data ++ '.' :: t.name.data := by
      simp [String.data_append]
    rw [pySplitDot, hd, splitOnDot_append_dot ns.data t.name.data h1,
        splitOnDot_no_dot t.name.data h2]
    rfl
  have hct : convertSingleTool ns t = .ok
      { functionName := ns ++ "." ++ t.name
        description :=
          match t.description with
          | none => "Execute " ++ t.name ++ " tool"
          | some d => if d = "" then "Execute " ++ t.name ++ " tool" else d
        parameters := convertInputSchema t.inputSchema } := by
    rw [convertSingleTool, if_neg h3]
  refine ⟨⟨_, hct⟩, ?_⟩
  intro ot hot
  rw [hct] at hot
  cases hot
  exact ⟨rfl, hsplit⟩

/-- Witness for C8 at provider `files`, tool `read`. -/
theorem qualifiedName_split_roundtrip_witness :
    (∃ ot, convertSingleTool "files" { name := "read" } = .ok ot) ∧
    (∀ ot, convertSingleTool "files" { name := "read" } = .ok ot →
      ot.functionName = "files" ++ "." ++ "read" ∧
      pySplitDot ot.functionName = ["files", "read"]) :=
  qualifiedName_split_roundtrip "files" { name := "read" }
    (by decide) (by decide) (by decide)

/-! ## C4 -/

theorem parseStdio_some_has_command (d : RawDescriptor)
    (c : StdioServerConfig) (h : parseStdio d = some c) :
    (List.lookup "command" d).isSome := by
  unfold parseStdio at h
  by_cases hk : keysAllowed d ["command", "args", "env", "timeout"]
  · rw [if_pos hk] at h
    cases hlk : List.lookup "command" d with
    | some v => rfl
    | none =>
      rw [hlk] at h
      simp at h
  · rw [if_neg hk] at h
    exact Option.noConfusion h

/-- C4: `_parse_config` tries the Stdio variant first and the Sse
variant second under strict field matching, returns the first variant
that matches, and returns the classification error exactly when
neither matches — never both a variant and an error.  In particular a
descriptor with no `command` field can never produce the Stdio
variant, so a descriptor carrying a `url` and no `command` resolves
(when it resolves at all) to the Sse variant. -/
theorem parseConfig_first_match_or_classification_error
    (d : RawDescriptor) :
    (∀ c, parseConfig d = .ok (.stdio c) ↔ parseStdio d = some c) ∧
    (∀ c, parseConfig d = .ok (.sse c) ↔
      (parseStdio d = none ∧ parseSSE d = some c)) ∧
    ((∃ e, parseConfig d = .error e) ↔
      (parseStdio d = none ∧ parseSSE d = none)) ∧
    (List.lookup "command" d = none →
      parseStdio d = none ∧
      ∀ r, parseConfig d = .ok r → ∃ c, r = .sse c) := by
  cases hs : parseStdio d with
  | some c0 =>
    refine ⟨?_, ?_, ?_, ?_⟩
    · intro c
      simp [parseConfig, hs]
    · intro c
      simp [parseConfig, hs]
    · simp [parseConfig, hs]
    · intro h
      have h2 := parseStdio_some_has_command d c0 hs
      rw [h] at h2
      exact absurd h2 Bool.false_ne_true
  | none =>
    cases hsse : parseSSE d with
    | some c1 =>
      refine ⟨?_, ?_, ?_, fun _ => ⟨rfl, ?_⟩⟩
      · intro c
        simp [parseConfig, hs, hsse]
      · intro c
        simp [parseConfig, hs, hsse]
      · simp [parseConfig, hs, hsse]
      · intro r hr
        simp only [parseConfig, hs, hsse] at hr
        cases hr
        exact ⟨c1, rfl⟩
    | none =>
      refine ⟨?_, ?_, ?_, fun _ => ⟨rfl, ?_⟩⟩
      · intro c
        simp [parseConfig, hs, hsse]
      · intro c
        simp [parseConfig, hs, hsse]
      · refine ⟨fun _ => ⟨rfl, rfl⟩, fun _ => ?_⟩
        exact ⟨"Configuration doesn't match any known types: "
          ++ "[StdioServerConfig, SSEServerConfig]",
          by simp [parseConfig, hs, hsse]⟩
      · intro r hr
        simp [parseConfig, hs, hsse] at hr

/-- Witness for C4 at the concrete descriptor with one `url` field and
no `command` field: the Stdio variant is disqualified and any
successful resolution is the Sse variant. -/
theorem parseConfig_first_match_or_classification_error_witness :
    parseStdio [("url", JsonVal.str "http://h")] = none ∧
    ∀ r, parseConfig [("url", JsonVal.str "http://h")] = .ok r →
      ∃ c, r = .sse c :=
  (parseConfig_first_match_or_classification_error
    [("url", JsonVal.str "http://h")]).2.2.2 rfl

/-! ## C3

The code does record a tool-result message for a hallucinated
provider, without aborting the batch, and the loop does continue — but
the message's text is the generic `AttributeError` from invoking
`call_tool` on the `{}` placeholder, not a statement that the tool
does not exist (only the log line says that). -/

/-- C3 counterexample: executing a batch with the single call
`ghost.run` against the registry `servers0` (which has no provider
`ghost`) records a tool-result message whose content is the generic
attribute-error text; that text does not state that the tool does not
exist — it mentions neither existence, nor unknown/not-found/missing,
nor the hallucinated name. -/
theorem unknown_provider_message_counterexample :
    executeToolCalls env0 servers0 [ghostCall]
      = .ok [assistantMsg [ghostCall],
             { role := .tool, tool_call_id := some "call_g",
               content := unknownToolText }] ∧
    ¬ SpecStatesToolDoesNotExist ghostCall unknownToolText := by
  exact ⟨rfl, by decide⟩

/-- C3 (amended): for every well-formed batch containing a call whose
provider segment is not a key of the registry, `execute_tool_calls`
still produces one tool-result message per call without aborting the
batch; the hallucinated call's message carries the generic
`AttributeError` text (not a statement that the tool does not exist);
and the conversation loop proceeds to the follow-up round. -/
theorem unknown_provider_generic_error_batch_continues
    (env : Env) (servers : Registry) (calls : List ToolCall)
    (h : ∀ tc ∈ calls, GoodCall env tc)
    (tc : ToolCall) (htc : tc ∈ calls)
    (hns : List.lookup ((pySplitDot tc.name).getD 0 "") servers = none) :
    executeToolCalls env servers calls
      = .ok (assistantMsg calls :: calls.map (msgOf env servers)) ∧
    msgOf env servers tc
      = { role := .tool, tool_call_id := some tc.id,
          content := unknownToolText } ∧
    ∀ (upstream : Nat → UpResp) (fuel k : Nat) (prev : Option RespData)
      (d : RespData),
      (upstream k).status = 200 → (upstream k).parsed = some d →
      d.toolCalls = calls →
      handleLoop env servers upstream (fuel + 1) k prev
        = handleLoop env servers upstream fuel (k + 1) (some d) := by
  refine ⟨?_, ?_, ?_⟩
  · simp [executeToolCalls, runCalls_good env servers calls h, Except.map]
  · simp only [msgOf, hns]
  · intro upstream fuel k prev d hst hp hd
    have hne : d.toolCalls.isEmpty = false := by
      rw [hd]
      cases calls with
      | nil => exact absurd htc (List.not_mem_nil tc)
      | cons a l => rfl
    have hexec : executeToolCalls env servers d.toolCalls
        = .ok (assistantMsg d.toolCalls
            :: d.toolCalls.map (msgOf env servers)) := by
      rw [hd]
      simp [executeToolCalls, runCalls_good env servers calls h, Except.map]
    rw [show (fuel + 1) = fuel.succ from rfl, handleLoop.eq_def]
    simp only [hst, if_pos rfl, hp, hne, Bool.false_eq_true, if_false, hexec]
    simp

/-- Witness for the amended C3 at the concrete one-call batch
`[ghostCall]` against `servers0`. -/
theorem unknown_provider_generic_error_batch_continues_witness :
    msgOf env0 servers0 ghostCall
      = { role := .tool, tool_call_id := some "call_g",
          content := unknownToolText } :=
  (unknown_provider_generic_error_batch_continues env0 servers0
    [ghostCall] (by decide) ghostCall (by decide) (by rfl)).2.1

/-! ## C7

`MCPStdioClient.connect` treats any non-`connected` state — including
`error` — as "proceed to connect", and `BaseMCPClient.disconnect`
moves any non-`disconnected` state — including `error` — to
`disconnected`.  So `error` is not terminal for the client's
lifetime; what is true is that no *automatic* transition exists: only
the explicit `connect`/`disconnect` operations move the state, and
`call_tool`/`list_tools` never do. -/

/-- C7 counterexample: a client in the `error` state is moved out of
it by each of the two explicit lifecycle operations — `connect` (with
a succeeding transport) reaches `connected`, and `disconnect` reaches
`disconnected`. -/
theorem error_state_not_terminal_counterexample :
    (connectStep cErr (.ok [])).1.state = .connected ∧
    (disconnectStep cErr).state = .disconnected ∧
    ConnectionState.connected ≠ ConnectionState.error ∧
    ConnectionState.disconnected ≠ ConnectionState.error :=
  ⟨rfl, rfl, by decide, by decide⟩

/-- C7 (amended): from the `error` state, `call_tool` and
`list_tools` fail and leave the client record unchanged (there is no
automatic retry), but the explicit operations do transition out of
`error`: `connect` retries (reaching `connected` on transport success
and `error` again on failure), and `disconnect` moves the client to
`disconnected`. -/
theorem error_state_transitions (c : Client) (hc : c.state = .error) :
    (∀ tools, (connectStep c (.ok tools)).1.state = .connected) ∧
    (∀ e, (connectStep c (.error e)).1.state = .error) ∧
    (disconnectStep c).state = .disconnected ∧
    (∀ tr n a, (callToolStep c tr n a).1 = c ∧
      (callToolStep c tr n a).2 = .error ("Not connected to " ++ c.name)) ∧
    (listToolsStep c).1 = c ∧
    (listToolsStep c).2 = .error ("Not connected to " ++ c.name) := by
  refine ⟨?_, ?_, ?_, ?_, ?_, ?_⟩
  · intro tools
    simp [connectStep, hc]
  · intro e
    simp [connectStep, hc]
  · simp [disconnectStep, hc]
  · intro tr n a
    constructor <;> simp [callToolStep, hc]
  · simp [listToolsStep, hc]
  · simp [listToolsStep, hc]

/-- Witness for the amended C7 at the concrete `error`-state client
`cErr`. -/
theorem error_state_transitions_witness :
    (disconnectStep cErr).state = .disconnected ∧
    (listToolsStep cErr).2 = .error ("Not connected to " ++ cErr.name) :=
  ⟨(error_state_transitions cErr rfl).2.2.1,
   (error_state_transitions cErr rfl).2.2.2.2.2⟩

/-! ## C6

`load_mcp_servers` does raise on a missing, unreadable or invalid
descriptor file — but `init_mcp_servers` wraps the whole load in
`try/except Exception` and only logs, so the aiohttp application
finishes its startup hook normally and serves requests with an empty
`connected_servers` registry: the process does not halt. -/

/-- C6 counterexample: with the descriptor file missing, the loader
raises `FileNotFoundError`, yet startup completes and the app serves
with an empty registry — the outcome is `serving`, not `halted`. -/
theorem startup_serves_on_missing_config_counterexample :
    loadMcpServers (.error .notFound) = .error .fileNotFound ∧
    initMcpServers (.error .notFound) (fun _ => .ok []) = .serving [] ∧
    (StartupOutcome.serving [] ≠ .halted) :=
  ⟨rfl, rfl, fun h => StartupOutcome.noConfusion h⟩

/-- C6 (amended): for every way the descriptor file fails (missing,
unreadable, or syntactically invalid), `load_mcp_servers` raises an
error, but `init_mcp_servers` catches every load failure and only
logs it, so startup always completes: the outcome is `serving` (with
an empty registry on load failure), never `halted`. -/
theorem config_failure_swallowed_at_startup (ferr : FileErr)
    (co : String → Except String (List MCPTool)) :
    (∃ e, loadMcpServers (.error ferr) = .error e) ∧
    initMcpServers (.error ferr) co = .serving [] ∧
    ∀ file, initMcpServers file co ≠ .halted := by
  refine ⟨?_, ?_, ?_⟩
  · cases ferr with
    | notFound => exact ⟨.fileNotFound, rfl⟩
    | badJson => exact ⟨.jsonDecode, rfl⟩
    | otherIo => exact ⟨.otherRaise, rfl⟩
  · cases ferr <;> rfl
  · intro file
    rw [initMcpServers]
    cases loadMcpServers file with
    | error e => exact fun h => StartupOutcome.noConfusion h
    | ok cs => exact fun h => StartupOutcome.noConfusion h

/-! ## Helper lemmas on the resolution loop -/

theorem handleLoop_zero (env : Env) (servers : Registry)
    (upstream : Nat → UpResp) (k : Nat) (prev : Option RespData) :
    handleLoop env servers upstream 0 k prev = .error .runtimeMaxIter := rfl

theorem handleLoop_succ (env : Env) (servers : Registry)
    (upstream : Nat → UpResp) (fuel k : Nat) (prev : Option RespData) :
    handleLoop env servers upstream (fuel + 1) k prev =
      (if (upstream k).status = 200 then
        match (upstream k).parsed with
        | none => .error .jsonDecode
        | some d =>
          if d.toolCalls.isEmpty then .ok d
          else
            match executeToolCalls env servers d.toolCalls with
            | .error e => .error (.execRaise e)
            | .ok _ => handleLoop env servers upstream fuel (k + 1) (some d)
      else
        match prev with
        | none => .error .nameError
        | some d => .ok d) := rfl

/-- Any `.ok` result of the loop is the parsed body of some 200
round, and that round either contained no tool calls (the converged
final round) or was followed by a non-200 round (the stale-return
path of `return final_response`). -/
theorem handleLoop_ok_source (env : Env) (servers : Registry)
    (upstream : Nat → UpResp) :
    ∀ (fuel k : Nat) (prev : Option RespData) (d : RespData),
      (∀ dp, prev = some dp → ∃ j, (upstream j).status = 200 ∧
        (upstream j).parsed = some dp ∧ j + 1 = k) →
      handleLoop env servers upstream fuel k prev = .ok d →
      ∃ j, (upstream j).status = 200 ∧ (upstream j).parsed = some d ∧
        (d.toolCalls = [] ∨ (upstream (j + 1)).status ≠ 200) := by
  intro fuel
  induction fuel with
  | zero =>
    intro k prev d _ h
    rw [handleLoop_zero] at h
    exact Except.noConfusion h
  | succ n ih =>
    intro k prev d hinv h
    rw [handleLoop_succ] at h
    by_cases hst : (upstream k).status = 200
    · rw [if_pos hst] at h
      cases hp : (upstream k).parsed with
      | none =>
        rw [hp] at h
        dsimp only at h
        exact Except.noConfusion h
      | some d0 =>
        rw [hp] at h
        dsimp only at h
        by_cases hemp : d0.toolCalls.isEmpty
        · rw [if_pos hemp] at h
          cases h
          exact ⟨k, hst, hp, Or.inl (List.isEmpty_iff.mp hemp)⟩
        · rw [if_neg hemp] at h
          cases hex : executeToolCalls env servers d0.toolCalls with
          | error e =>
            rw [hex] at h
            dsimp only at h
            exact Except.noConfusion h
          | ok ms =>
            rw [hex] at h
            dsimp only at h
            refine ih (k + 1) (some d0) d ?_ h
            intro dp hdp
            have hdd : dp = d0 := (Option.some.inj hdp).symm
            subst hdd
            exact ⟨k, hst, hp, rfl⟩
    · rw [if_neg hst] at h
      cases hprev : prev with
      | none =>
        rw [hprev] at h
        dsimp only at h
        exact Except.noConfusion h
      | some dp =>
        rw [hprev] at h
        dsimp only at h
        cases h
        obtain ⟨j, hj1, hj2, hj3⟩ := hinv d hprev
        exact ⟨j, hj1, hj2, Or.inr (by rw [hj3]; exact hst)⟩

/-- The loop inspects at most `fuel` upstream rounds, starting at
round `k`. -/
theorem handleLoop_frame (env : Env) (servers : Registry) :
    ∀ (fuel : Nat) (up1 up2 : Nat → UpResp) (k : Nat)
      (prev : Option RespData),
      (∀ i, i < fuel → up2 (k + i) = up1 (k + i)) →
      handleLoop env servers up2 fuel k prev
        = handleLoop env servers up1 fuel k prev := by
  intro fuel
  induction fuel with
  | zero => intro up1 up2 k prev _; rfl
  | succ n ih =>
    intro up1 up2 k prev h
    have h0 : up2 k = up1 k := by
      have h1 := h 0 (Nat.succ_pos n)
      simpa using h1
    rw [handleLoop_succ, handleLoop_succ, h0]
    by_cases hst : (up1 k).status = 200
    · rw [if_pos hst, if_pos hst]
      cases hp : (up1 k).parsed with
      | none => rfl
      | some d =>
        dsimp only
        by_cases hemp : d.toolCalls.isEmpty
        · rw [if_pos hemp, if_pos hemp]
        · rw [if_neg hemp, if_neg hemp]
          cases hex : executeToolCalls env servers d.toolCalls with
          | error e => rfl
          | ok ms =>
            dsimp only
            refine ih up1 up2 (k + 1) (some d) ?_
            intro i hi
            have h2 := h (i + 1) (Nat.succ_lt_succ hi)
            rw [show k + (i + 1) = k + 1 + i by omega] at h2
            exact h2
    · rw [if_neg hst, if_neg hst]

/-- When every inspected round is a 200 response carrying tool calls
that execute without raising, the loop burns all its fuel and raises
the max-iteration `RuntimeError`. -/
theorem handleLoop_exhausts (env : Env) (servers : Registry)
    (upstream : Nat → UpResp) :
    ∀ (fuel k : Nat),
      (∀ i, i < fuel → (upstream (k + i)).status = 200 ∧
        ∃ d, (upstream (k + i)).parsed = some d ∧ d.toolCalls ≠ [] ∧
          ∀ tc ∈ d.toolCalls, GoodCall env tc) →
      ∀ prev, handleLoop env servers upstream fuel k prev
        = .error .runtimeMaxIter := by
  intro fuel
  induction fuel with
  | zero => intro k _ prev; rfl
  | succ n ih =>
    intro k h prev
    obtain ⟨hst, d, hp, hne, hgood⟩ := by simpa using h 0 (Nat.succ_pos n)
    rw [handleLoop_succ, if_pos hst, hp]
    dsimp only
    have hemp : d.toolCalls.isEmpty = false := by
      cases hc : d.toolCalls with
      | nil => exact absurd hc hne
      | cons a l => rfl
    rw [if_neg (by rw [hemp]; exact Bool.false_ne_true)]
    have hexec : executeToolCalls env servers d.toolCalls
        = .ok (assistantMsg d.toolCalls
            :: d.toolCalls.map (msgOf env servers)) := by
      simp [executeToolCalls, runCalls_good env servers d.toolCalls hgood,
        Except.map]
    rw [hexec]
    dsimp only
    refine ih (k + 1) ?_ (some d)
    intro i hi
    have h2 := h (i + 1) (Nat.succ_lt_succ hi)
    rw [show k + (i + 1) = k + 1 + i by omega] at h2
    exact h2

/-! ## C2

A non-200 on the *first* upstream call is relayed unchanged (the MCP
branch is never entered), but a non-200 on a *follow-up* call is not:
`handle_tool_calls` then executes `return final_response`, which
returns the previous 200 round's parsed body (re-wrapped as a fresh
200 response) when such a round exists, and raises `NameError`
(surfacing as the 500 internal error) on the very first follow-up
round. -/

/-- C2 counterexample: the first response carries tool calls, the
first follow-up round (round 0) is a 200 that still carries tool
calls, and round 1 fails with 500.  The caller receives a 200 JSON
response whose body is round 0's parsed data — an intermediate
round's response still containing tool calls — instead of the
unchanged 500 upstream response.  With the 500 arriving on the very
first follow-up round instead, the caller receives the 500
internal-error response, again not the upstream 500 body. -/
theorem follow_up_failure_not_relayed_counterexample :
    proxyBuffered env0 [] upstreamStale 25 true firstResp
      = .jsonOk dataRound0 ∧
    (upstreamStale 1).status = 500 ∧
    dataRound0.toolCalls ≠ [] ∧
    proxyBuffered env0 [] upstreamStale 25 true firstResp
      ≠ .relay (upstreamStale 1).status (upstreamStale 1).body ∧
    proxyBuffered env0 [] upstreamFailNow 25 true firstResp
      = .internalError := by
  refine ⟨by decide, rfl, by decide, by decide, by decide⟩

/-- C2 (amended): every buffered response forwarded to the caller is
one of three things — the unmodified first upstream response, a 200
JSON response carrying the loop's result, or the 500 internal error;
a non-200 status on the *first* upstream call is always relayed
unchanged; and whenever a loop result is forwarded, it is the parsed
body of some 200 round that either contains no tool calls (the
genuinely final round) or — the stale case — was followed by a
non-200 follow-up round whose response is *not* what the caller
sees. -/
theorem buffered_response_provenance (env : Env) (servers : Registry)
    (upstream : Nat → UpResp) (maxIter : Nat) (enableMcp : Bool)
    (first : UpResp) :
    (first.status ≠ 200 →
      proxyBuffered env servers upstream maxIter enableMcp first
        = .relay first.status first.body) ∧
    (∀ d, proxyBuffered env servers upstream maxIter enableMcp first
        = .jsonOk d →
      ∃ j, (upstream j).status = 200 ∧ (upstream j).parsed = some d ∧
        (d.toolCalls = [] ∨ (upstream (j + 1)).status ≠ 200)) ∧
    (proxyBuffered env servers upstream maxIter enableMcp first
        = .relay first.status first.body ∨
      (∃ d, proxyBuffered env servers upstream maxIter enableMcp first
        = .jsonOk d) ∨
      proxyBuffered env servers upstream maxIter enableMcp first
        = .internalError) := by
  refine ⟨?_, ?_, ?_⟩
  · intro h
    rw [proxyBuffered, if_neg (fun hc => h hc.1)]
  · intro d hd
    by_cases hc : first.status = 200 ∧ enableMcp
    · rw [proxyBuffered, if_pos hc] at hd
      cases hp : first.parsed with
      | none =>
        rw [hp] at hd
        exact Forwarded.noConfusion hd
      | some d0 =>
        rw [hp] at hd
        dsimp only at hd
        by_cases hemp : d0.toolCalls.isEmpty
        · rw [if_pos hemp] at hd
          exact Forwarded.noConfusion hd
        · rw [if_neg hemp] at hd
          cases hh : handleToolCalls env servers upstream maxIter
              d0.toolCalls with
          | ok fin =>
            rw [hh] at hd
            dsimp only at hd
            have hfin : fin = d := Forwarded.jsonOk.inj hd
            subst hfin
            rw [handleToolCalls] at hh
            cases hex : executeToolCalls env servers d0.toolCalls with
            | error e =>
              rw [hex] at hh
              exact Except.noConfusion hh
            | ok ms =>
              rw [hex] at hh
              dsimp only at hh
              refine handleLoop_ok_source env servers upstream maxIter 0
                none fin ?_ hh
              intro dp hdp
              exact Option.noConfusion hdp
          | error e =>
            rw [hh] at hd
            cases e with
            | runtimeMaxIter => exact Forwarded.noConfusion hd
            | nameError => exact Forwarded.noConfusion hd
            | jsonDecode => exact Forwarded.noConfusion hd
            | execRaise e2 =>
              cases e2 with
              | jsonDecode => exact Forwarded.noConfusion hd
              | unpackError => exact Forwarded.noConfusion hd
    · rw [proxyBuffered, if_neg hc] at hd
      exact Forwarded.noConfusion hd
  · by_cases hc : first.status = 200 ∧ enableMcp
    · rw [proxyBuffered, if_pos hc]
      cases hp : first.parsed with
      | none => exact Or.inl rfl
      | some d0 =>
        dsimp only
        by_cases hemp : d0.toolCalls.isEmpty
        · rw [if_pos hemp]
          exact Or.inl rfl
        · rw [if_neg hemp]
          cases hh : handleToolCalls env servers upstream maxIter
              d0.toolCalls with
          | ok fin => exact Or.inr (Or.inl ⟨fin, rfl⟩)
          | error e =>
            cases e with
            | runtimeMaxIter => exact Or.inr (Or.inr rfl)
            | nameError => exact Or.inr (Or.inr rfl)
            | jsonDecode => exact Or.inl rfl
            | execRaise e2 =>
              cases e2 with
              | jsonDecode => exact Or.inl rfl
              | unpackError => exact Or.inr (Or.inr rfl)
    · rw [proxyBuffered, if_neg hc]
      exact Or.inl rfl

/-- Witness for the amended C2: with the stale-round upstream
behaviour, the forwarded loop result `dataRound0` is indeed the
parsed body of a 200 round (round 0) that was followed by a non-200
round. -/
theorem buffered_response_provenance_witness :
    ∃ j, (upstreamStale j).status = 200 ∧
      (upstreamStale j).parsed = some dataRound0 ∧
      (dataRound0.toolCalls = [] ∨ (upstreamStale (j + 1)).status ≠ 200) :=
  (buffered_response_provenance env0 [] upstreamStale 25 true
    firstResp).2.1 dataRound0 (by decide)

/-! ## C5 -/

/-- C5: the resolution loop performs at most `MAX_ITERATION`
follow-up rounds — its result is unchanged under any modification of
the upstream behaviour beyond round `MAX_ITERATION - 1` — and when
every one of those rounds keeps answering 200 with (well-formed) tool
calls, the loop terminates with the `RuntimeError` budget-exceeded
failure, which `proxy_request` surfaces to the caller as the 500
internal server error. -/
theorem iteration_budget_exceeded (env : Env) (servers : Registry)
    (upstream : Nat → UpResp) (maxIter : Nat) (first : UpResp)
    (d0 : RespData)
    (hall : ∀ i, i < maxIter → (upstream i).status = 200 ∧
      ∃ d, (upstream i).parsed = some d ∧ d.toolCalls ≠ [] ∧
        ∀ tc ∈ d.toolCalls, GoodCall env tc)
    (hf1 : first.status = 200) (hfp : first.parsed = some d0)
    (hd0 : d0.toolCalls ≠ []) (hg0 : ∀ tc ∈ d0.toolCalls, GoodCall env tc) :
    handleLoop env servers upstream maxIter 0 none
      = .error .runtimeMaxIter ∧
    proxyBuffered env servers upstream maxIter true first
      = .internalError ∧
    ∀ up2 : Nat → UpResp, (∀ i, i < maxIter → up2 i = upstream i) →
      handleLoop env servers up2 maxIter 0 none
        = handleLoop env servers upstream maxIter 0 none := by
  have hloop : handleLoop env servers upstream maxIter 0 none
      = .error .runtimeMaxIter := by
    refine handleLoop_exhausts env servers upstream maxIter 0 ?_ none
    intro i hi
    simpa using hall i hi
  refine ⟨hloop, ?_, ?_⟩
  · have hemp : d0.toolCalls.isEmpty = false := by
      cases hc : d0.toolCalls with
      | nil => exact absurd hc hd0
      | cons a l => rfl
    have hexec : executeToolCalls env servers d0.toolCalls
        = .ok (assistantMsg d0.toolCalls
            :: d0.toolCalls.map (msgOf env servers)) := by
      simp [executeToolCalls, runCalls_good env servers d0.toolCalls hg0,
        Except.map]
    rw [proxyBuffered, if_pos ⟨hf1, rfl⟩, hfp]
    dsimp only
    rw [if_neg (by rw [hemp]; exact Bool.false_ne_true)]
    rw [handleToolCalls, hexec]
    dsimp only
    rw [hloop]
  · intro up2 h2
    rw [hloop]
    refine Eq.trans ?_ hloop
    refine handleLoop_frame env servers maxIter upstream up2 0 none ?_
    intro i hi
    simpa using h2 i hi

/-- Witness for C5 with budget 2 against an upstream that answers
every round with a 200 tool-call response. -/
theorem iteration_budget_exceeded_witness :
    handleLoop env0 [] upstreamLoops 2 0 none
      = .error .runtimeMaxIter ∧
    proxyBuffered env0 [] upstreamLoops 2 true firstResp
      = .internalError :=
  ⟨(iteration_budget_exceeded env0 [] upstreamLoops 2 firstResp dataFirst
      (fun i _ => ⟨rfl, dataRound0, rfl, by decide, by decide⟩)
      rfl rfl (by decide) (by decide)).1,
   (iteration_budget_exceeded env0 [] upstreamLoops 2 firstResp dataFirst
      (fun i _ => ⟨rfl, dataRound0, rfl, by decide, by decide⟩)
      rfl rfl (by decide) (by decide)).2.1⟩

end LlamaMcpProxy
